import Mathlib

/-!
Shallow embedding of the BrainBug-Extension save-coalescing and delivery
core (`src/extension.ts`).  Machine state (the retry queue, the drain
timer and the per-key debounce map) is passed explicitly; the network
exchange of one `fetch` call is an explicit `FetchResult` value; virtual
time is a `Nat` in milliseconds.
-/

namespace BrainBug

/-- Resource identity: the `scheme` and `path` of a `vscode.Uri`. -/
structure Uri where
  scheme : String
  path : String
  deriving DecidableEq

/-- Mirror of `uri.fsPath` (on a POSIX host the filesystem path is the
uri path). -/
def Uri.fsPath (u : Uri) : String := u.path

/-- Mirror of `uri.toString()`, the debounce-map key: one key per
resource. -/
def Uri.key (u : Uri) : String := u.scheme ++ "://" ++ u.path

/-- Mirror of the `SendTask` record of `extension.ts`. -/
structure SendTask where
  uri : Uri
  content : String
  attempts : Nat
  lastError : Option String
  deriving DecidableEq

/-- Mirror of the settings helper: `enabled`, `endpoint`, `apiKey`,
`debounceMs` and the compiled exclude matcher set.  A compiled Minimatch
object is embedded as its extension, a predicate on the path (the
library itself is an external dependency, not code of this repository). -/
structure Settings where
  enabled : Bool
  endpoint : String
  apiKey : String
  debounceMs : Nat
  excludeMatchers : List (String → Bool)

/-- Mirror of `isExcluded`: some compiled matcher accepts `uri.fsPath`. -/
def isExcluded (matchers : List (String → Bool)) (u : Uri) : Bool :=
  matchers.any (fun m => m u.fsPath)

/-- Mirror of JavaScript `path.split(".")` : split a character list at
every dot, keeping empty segments (`split` on a one-character separator
never returns an empty array). -/
def splitOnDot : List Char → List (List Char)
  | [] => [[]]
  | c :: cs =>
    match splitOnDot cs with
    | [] => [[]]
    | seg :: rest => if c = '.' then [] :: seg :: rest else (c :: seg) :: rest

/-- Mirror of `task.uri.path.split(".").pop() || ""` (line 65): the last
dot-separated segment of the path; the `|| ""` turns a missing (never
the case) or empty segment into the empty string, which is the identity
on the last segment. -/
def languageOf (path : String) : String :=
  match (splitOnDot path.toList).getLast? with
  | none => ""
  | some seg => String.mk seg

/-- Mirror of the JSON request body built in `sendToBackend`
(lines 63-68). -/
structure RequestBody where
  fileName : String
  language : String
  code : String
  timestamp : String
  deriving DecidableEq

/-- Mirror of the `JSON.stringify({...})` argument: `timestamp` is the
ISO string of the send instant, passed in explicitly. -/
def buildRequestBody (t : SendTask) (timestamp : String) : RequestBody :=
  { fileName := t.uri.fsPath
    language := languageOf t.uri.path
    code := t.content
    timestamp := timestamp }

/-- Mirror of the `GeminiResponse` payload type: both fields optional. -/
structure GeminiResponse where
  analysis : Option String
  model : Option String
  deriving DecidableEq

/-- Mirror of the `BackendResponse` payload type. -/
structure BackendResponse where
  gemini : Option GeminiResponse
  error : Option String
  success : Option Bool
  deriving DecidableEq

/-- JavaScript truthiness of an optional string field: present and
non-empty. -/
def truthy : Option String → Bool
  | none => false
  | some s => !s.isEmpty

/-- Outcome surfaced to the user for a delivered (decoded) response:
either the analysis notification or the `BrainBug Error` message. -/
inductive Notice where
  | analysisShown (analysis : String) (model : String)
  | apiError (message : String)
  deriving DecidableEq

/-- Mirror of the response interpretation (lines 90-113): a truthy
`gemini.analysis` yields the analysis outcome with `model || 'unknown'`;
otherwise the outcome is `error || 'API returned 200 OK but no
gemini.analysis field.'`. -/
def interpretResponse (data : BackendResponse) : Notice :=
  match data.gemini with
  | some g =>
    if truthy g.analysis then
      Notice.analysisShown (g.analysis.getD "")
        (if truthy g.model then g.model.getD "" else "unknown")
    else
      Notice.apiError (if truthy data.error then data.error.getD ""
        else "API returned 200 OK but no gemini.analysis field.")
  | none =>
      Notice.apiError (if truthy data.error then data.error.getD ""
        else "API returned 200 OK but no gemini.analysis field.")

/-- One HTTP response as `fetch` resolves it: the `ok` flag, the status
code, the result of `res.text()` (`none` when reading the body rejects;
the source catches that and uses `""`), and the result of `res.json()`
(`Except.error` carries the decode-failure message). -/
structure HttpResponse where
  ok : Bool
  status : Nat
  bodyText : Option String
  json : Except String BackendResponse

/-- One `fetch` exchange: either the promise rejects (network failure)
or it resolves to a response. -/
inductive FetchResult where
  | networkError (message : String)
  | response (r : HttpResponse)

/-- Mirror of the thrown `HTTP ${status}: ${text}` message (line 73). -/
def httpErrorMsg (r : HttpResponse) : String :=
  "HTTP " ++ toString r.status ++ ": " ++ r.bodyText.getD ""

/-- Error thrown inside the `try` block of `sendToBackend`, if any:
a rejected fetch, a non-success status, or a JSON decode failure.
`none` means the send is delivered (success path). -/
def fetchFailure : FetchResult → Option String
  | FetchResult.networkError msg => some msg
  | FetchResult.response r =>
    if !r.ok then some (httpErrorMsg r)
    else
      match r.json with
      | Except.error msg => some msg
      | Except.ok _ => none

/-- Mirror of `maxAttempts = 5` (line 125). -/
def maxAttempts : Nat := 5

/-- Abandonment log line of `requeue` (line 127). -/
def givingUpLine (t : SendTask) : String :=
  "Giving up sending " ++ t.uri.fsPath ++ " after " ++ toString t.attempts
    ++ " attempts."

/-- Effect of `requeue` (lines 124-134): either the task is pushed back
with a scheduled drain delay, or it is abandoned with a log line. -/
structure RequeueEffect where
  pushed : Option (SendTask × Nat)
  log : List String

/-- Mirror of `requeue`: a task whose counter has reached `maxAttempts`
is dropped and logged; otherwise it is pushed with backoff delay
`min(60000, 500 * 2 ^ attempts)` (line 131; `Math.pow` is exact on
these small naturals). -/
def requeue (t : SendTask) : RequeueEffect :=
  if maxAttempts ≤ t.attempts then
    { pushed := none, log := [givingUpLine t] }
  else
    { pushed := some (t, min 60000 (500 * 2 ^ t.attempts)), log := [] }

/-- Result of one `sendToBackend` call: the task after its in-place
mutation, the task pushed back to the queue with its scheduled delay
(if any), the user-facing outcome on a delivered response, and the
output-channel lines in order. -/
structure SendStep where
  task : SendTask
  pushed : Option (SendTask × Nat)
  notice : Option Notice
  log : List String

/-- Banner of `n` equals signs around the printed analysis. -/
def banner (n : Nat) : String := String.mk (List.replicate n '=')

/-- Output-channel lines of the success path after decoding: the source
frames the analysis between a line of 20 equals signs, the words
`BrainBug Analysis` and 20 more, and a line of 59 equals signs. -/
def noticeLog : Notice → List String
  | Notice.analysisShown a m =>
      ["Analysis received (model: " ++ m ++ ")",
       banner 20 ++ " BrainBug Analysis " ++ banner 20,
       a,
       banner 59]
  | Notice.apiError e => ["API Error: " ++ e]

/-- Mirror of the `catch` block (lines 115-121): increment `attempts`
(the `|| 0` is the identity on a natural), record the message in
`lastError`, log, and call `requeue`. -/
def sendCatch (endpoint : String) (t : SendTask) (msg : String) : SendStep :=
  let t' : SendTask :=
    { t with attempts := t.attempts + 1, lastError := some msg }
  let rq := requeue t'
  { task := t'
    pushed := rq.pushed
    notice := none
    log := ["Sending " ++ t.uri.fsPath ++ " -> " ++ endpoint,
            "Failed to send " ++ t.uri.fsPath ++ ": " ++ msg
              ++ " (attempt " ++ toString t'.attempts ++ ")"]
           ++ rq.log }

/-- Mirror of the success path after `res.json()` resolves
(lines 90-114): interpret the payload, then `task.attempts = 0`; the
task is not handed to `requeue`. -/
def sendDelivered (endpoint : String) (t : SendTask) (data : BackendResponse) :
    SendStep :=
  let notice := interpretResponse data
  { task := { t with attempts := 0 }
    pushed := none
    notice := some notice
    log := ("Sending " ++ t.uri.fsPath ++ " -> " ++ endpoint) :: noticeLog notice }

/-- Mirror of `sendToBackend` (lines 51-122) over one explicit fetch
exchange: a rejected fetch, a non-success status and a decode failure
all reach the `catch` block; a decoded payload reaches the success
path whatever its shape. -/
def sendToBackend (endpoint : String) (t : SendTask) (f : FetchResult) :
    SendStep :=
  match f with
  | FetchResult.networkError msg => sendCatch endpoint t msg
  | FetchResult.response r =>
    if !r.ok then sendCatch endpoint t (httpErrorMsg r)
    else
      match r.json with
      | Except.error msg => sendCatch endpoint t msg
      | Except.ok data => sendDelivered endpoint t data

/-- Document handle captured by the debounce callback: its uri and its
text as read by `doc.getText()` at a given virtual instant (the callback
reads the text at fire time). -/
structure Doc where
  uri : Uri
  textAt : Nat → String

/-- One live entry of the `pending` debounce map: its key, the instant
its `setTimeout` fires, and the captured document handle. -/
structure PendingEntry where
  key : String
  fireAt : Nat
  doc : Doc

/-- Mutable state of the activated extension: the retry `queue`, the
drain `timer` (`some d` = a `setTimeout(processQueue, d)` is live), the
`pending` debounce map (at most one entry per key) and the output
channel. -/
structure ExtState where
  queue : List SendTask
  drainTimer : Option Nat
  pending : List PendingEntry
  log : List String

/-- State at activation: empty queue, no timers, empty map. -/
def initialState : ExtState :=
  { queue := [], drainTimer := none, pending := [], log := [] }

/-- Mirror of `scheduleQueueProcessor` (lines 136-142): clear any live
drain timer and start a new one for `delayMs`. -/
def scheduleQueueProcessor (delayMs : Nat) (st : ExtState) : ExtState :=
  { st with drainTimer := some delayMs }

/-- Mirror of the `onDidSaveTextDocument` handler body (lines 157-186)
at virtual instant `now`: bail out when disabled, when the scheme is not
`file`, or (with a log line) when the path is excluded; otherwise cancel
any live debounce timer for the key and install a fresh one firing at
`now + debounceMs`. -/
def onDidSave (s : Settings) (doc : Doc) (now : Nat) (st : ExtState) :
    ExtState :=
  if !s.enabled then st
  else if doc.uri.scheme != "file" then st
  else if isExcluded s.excludeMatchers doc.uri then
    { st with log := st.log ++ ["Excluded: " ++ doc.uri.fsPath] }
  else
    { st with
        pending := st.pending.filter (fun e => e.key != doc.uri.key)
          ++ [{ key := doc.uri.key, fireAt := now + s.debounceMs, doc := doc }] }

/-- Mirror of the debounce callback (lines 176-184) for entry `e` at its
fire instant: delete the key from `pending`, read the text, push an
`attempts = 0` task, log, and `scheduleQueueProcessor(0)`. -/
def fireTimer (e : PendingEntry) (st : ExtState) : ExtState :=
  scheduleQueueProcessor 0
    { st with
        pending := st.pending.filter (fun p => p.key != e.key)
        queue := st.queue ++
          [{ uri := e.doc.uri, content := e.doc.textAt e.fireAt,
             attempts := 0, lastError := none }]
        log := st.log ++ ["Queued " ++ e.doc.uri.fsPath ++ " for sending"] }

/-- Runs every debounce callback whose timer is due at instant `t`, in
map order (per key the entries were installed in time order, so due
entries fire in fire-time order). -/
def fireDue (t : Nat) (st : ExtState) : ExtState :=
  (st.pending.filter (fun e => decide (e.fireAt ≤ t))).foldl
    (fun acc e => fireTimer e acc) st

/-- Simulation of a burst of save events for one document: before each
save the due debounce timers fire, then the handler runs; at `endTime`
the remaining due timers fire. -/
def runSaves (s : Settings) (doc : Doc) (saves : List Nat) (endTime : Nat) :
    ExtState :=
  fireDue endTime
    (saves.foldl (fun st t => onDidSave s doc t (fireDue t st)) initialState)

/-- Applies one `sendToBackend` result to the state: append its log
lines; when `requeue` pushed the task back, append it to the queue and
reschedule the drain timer with the backoff delay. -/
def applySendStep (step : SendStep) (st : ExtState) : ExtState :=
  let st1 := { st with log := st.log ++ step.log }
  match step.pushed with
  | some (t, d) => scheduleQueueProcessor d { st1 with queue := st1.queue ++ [t] }
  | none => st1

/-- Sequential body of the drain pass (`for ... await sendToBackend`,
lines 151-153): task `i` of the snapshot is sent against exchange
`f i`; while send `i` is in flight the cooperative scheduler may run
debounce callbacks, which append the tasks `arr i` to the queue.
Returns the final state and the sent tasks in order. -/
def drainLoop (s : Settings) (f : Nat → FetchResult)
    (arr : Nat → List SendTask) :
    Nat → List SendTask → ExtState → ExtState × List SendTask
  | _, [], st => (st, [])
  | i, t :: ts, st =>
    let step := sendToBackend s.endpoint t (f i)
    let st1 := applySendStep step st
    let st2 := { st1 with queue := st1.queue ++ arr i }
    let r := drainLoop s f arr (i + 1) ts st2
    (r.1, step.task :: r.2)

/-- Mirror of `processQueue` (lines 144-154): clear the drain timer,
return at once on an empty queue, otherwise splice the whole queue into
a snapshot and send it sequentially. -/
def processQueue (s : Settings) (f : Nat → FetchResult)
    (arr : Nat → List SendTask) (st : ExtState) : ExtState × List SendTask :=
  let st0 := { st with drainTimer := none }
  if st0.queue.isEmpty then (st0, [])
  else drainLoop s f arr 0 st0.queue { st0 with queue := [] }

/-- Mirror of the teardown hook (lines 199-207): clear the drain timer
if live and log the remaining queue length; the `pending` debounce map
is not touched and the queue is not flushed. -/
def dispose (st : ExtState) : ExtState :=
  { st with
      drainTimer := none
      log := st.log ++
        ["CodeSendOnSave deactivating. Queue length: " ++ toString st.queue.length] }

/-- States of the activated extension reachable from activation through
the handler, the debounce timers, the drain passes and teardown.  Tasks
enqueued while a drain pass awaits a send come only from debounce
callbacks, which always push `attempts = 0` tasks; the `drain`
constructor carries that fact about its `arr` argument. -/
inductive Reach : ExtState → Prop where
  | init : Reach initialState
  | save (s : Settings) (doc : Doc) (now : Nat) (st : ExtState) :
      Reach st → Reach (onDidSave s doc now st)
  | fire (t : Nat) (st : ExtState) : Reach st → Reach (fireDue t st)
  | drain (s : Settings) (f : Nat → FetchResult) (arr : Nat → List SendTask)
      (hfresh : ∀ i a, a ∈ arr i → a.attempts = 0) (st : ExtState) :
      Reach st → Reach (processQueue s f arr st).1
  | teardown (st : ExtState) : Reach st → Reach (dispose st)

/-! Helper lemmas. -/

lemma splitOnDot_ne_nil (l : List Char) : splitOnDot l ≠ [] := by
  induction l with
  | nil => simp [splitOnDot]
  | cons c cs ih =>
    unfold splitOnDot
    rcases hs : splitOnDot cs with _ | ⟨seg, rest⟩
    · simp
    · by_cases hc : c = '.' <;> simp [hc]

lemma splitOnDot_no_dot (l : List Char) (h : '.' ∉ l) : splitOnDot l = [l] := by
  induction l with
  | nil => rfl
  | cons c cs ih =>
    have hc : c ≠ '.' := fun e => h (e ▸ List.mem_cons_self c cs)
    have hcs : '.' ∉ cs := fun m => h (List.mem_cons_of_mem _ m)
    unfold splitOnDot
    rw [ih hcs]
    simp [hc]

lemma two_le_splitOnDot_length (l : List Char) (h : '.' ∈ l) :
    2 ≤ (splitOnDot l).length := by
  induction l with
  | nil => simp at h
  | cons c cs ih =>
    unfold splitOnDot
    rcases hs : splitOnDot cs with _ | ⟨seg, rest⟩
    · exact absurd hs (splitOnDot_ne_nil cs)
    · by_cases hc : c = '.'
      · simp [hc]
      · have hcs : '.' ∈ cs := by
          rcases List.mem_cons.mp h with e | m
          · exact absurd e.symm hc
          · exact m
        have h2 := ih hcs
        rw [hs] at h2
        simp only [List.length_cons] at h2 ⊢
        simp [hc]
        omega

lemma splitOnDot_getLast?_append (xs ys : List Char) (h : '.' ∉ ys) :
    (splitOnDot (xs ++ '.' :: ys)).getLast? = some ys := by
  induction xs with
  | nil =>
    simp only [List.nil_append]
    unfold splitOnDot
    rw [splitOnDot_no_dot ys h]
    simp
  | cons x xs ih =>
    simp only [List.cons_append]
    unfold splitOnDot
    rcases hs : splitOnDot (xs ++ '.' :: ys) with _ | ⟨seg, rest⟩
    · exact absurd hs (splitOnDot_ne_nil _)
    · have hlen : 2 ≤ (splitOnDot (xs ++ '.' :: ys)).length :=
        two_le_splitOnDot_length _ (by simp)
      rw [hs] at hlen
      rcases rest with _ | ⟨r0, rest'⟩
      · simp at hlen
      · rw [hs] at ih
        show (if x = '.' then [] :: seg :: r0 :: rest'
          else (x :: seg) :: r0 :: rest').getLast? = some ys
        by_cases hx : x = '.'
        · rw [if_pos hx, List.getLast?_cons_cons]
          exact ih
        · rw [if_neg hx, List.getLast?_cons_cons]
          rw [List.getLast?_cons_cons] at ih
          exact ih

lemma string_mk_toList (s : String) : String.mk s.toList = s := rfl

lemma languageOf_no_dot (p : String) (h : '.' ∉ p.toList) : languageOf p = p := by
  unfold languageOf
  rw [splitOnDot_no_dot _ h]
  simp [string_mk_toList]

lemma toList_append (a b : String) : (a ++ b).toList = a.toList ++ b.toList :=
  String.data_append a b

lemma languageOf_append_dot (stem ext : String) (h : '.' ∉ ext.toList) :
    languageOf (stem ++ "." ++ ext) = ext := by
  unfold languageOf
  have hd : (stem ++ "." ++ ext).toList = stem.toList ++ '.' :: ext.toList := by
    rw [toList_append, toList_append]
    simp
  rw [hd, splitOnDot_getLast?_append _ _ h]
  simp [string_mk_toList]

lemma requeue_pushed_lt (t : SendTask) (h : t.attempts < maxAttempts) :
    (requeue t).pushed = some (t, min 60000 (500 * 2 ^ t.attempts)) := by
  rw [requeue, if_neg (Nat.not_le.mpr h)]

lemma requeue_pushed_ge (t : SendTask) (h : maxAttempts ≤ t.attempts) :
    (requeue t).pushed = none := by
  rw [requeue, if_pos h]

lemma sendToBackend_of_failure (endpoint : String) (t : SendTask)
    (f : FetchResult) (msg : String) (hf : fetchFailure f = some msg) :
    sendToBackend endpoint t f = sendCatch endpoint t msg := by
  cases f with
  | networkError m =>
    obtain rfl : m = msg := by simpa [fetchFailure] using hf
    rfl
  | response r =>
    by_cases hok : r.ok
    · rcases hj : r.json with m | data
      · obtain rfl : m = msg := by simpa [fetchFailure, hok, hj] using hf
        simp [sendToBackend, hok, hj]
      · exact absurd hf (by simp [fetchFailure, hok, hj])
    · have hb : r.ok = false := Bool.eq_false_iff.mpr hok
      obtain rfl : httpErrorMsg r = msg := by simpa [fetchFailure, hb] using hf
      simp [sendToBackend, hb]

/-- Task appended to the queue by one send step, as a list. -/
def pushedList (step : SendStep) : List SendTask :=
  match step.pushed with
  | some (t, _) => [t]
  | none => []

lemma applySendStep_queue (step : SendStep) (st : ExtState) :
    (applySendStep step st).queue = st.queue ++ pushedList step := by
  unfold applySendStep pushedList
  rcases step.pushed with _ | ⟨t, d⟩ <;> simp [scheduleQueueProcessor]

lemma requeue_pushed_some (x t' : SendTask) (d : Nat)
    (h : (requeue x).pushed = some (t', d)) :
    t' = x ∧ x.attempts < maxAttempts := by
  by_cases hx : maxAttempts ≤ x.attempts
  · rw [requeue_pushed_ge x hx] at h
    exact absurd h (by simp)
  · rw [requeue_pushed_lt x (Nat.not_le.mp hx)] at h
    simp at h
    exact ⟨h.1.symm, Nat.not_le.mp hx⟩

lemma sendCatch_pushed_lt (endpoint : String) (t : SendTask) (msg : String)
    (t' : SendTask) (d : Nat)
    (h : (sendCatch endpoint t msg).pushed = some (t', d)) :
    t'.attempts < maxAttempts := by
  have h' : (requeue { t with attempts := t.attempts + 1, lastError := some msg }).pushed = some (t', d) := h
  obtain ⟨he, hlt⟩ := requeue_pushed_some _ _ _ h'
  exact he ▸ hlt

lemma sendToBackend_pushed_lt (endpoint : String) (t : SendTask)
    (f : FetchResult) (t' : SendTask) (d : Nat)
    (h : (sendToBackend endpoint t f).pushed = some (t', d)) :
    t'.attempts < maxAttempts := by
  cases f with
  | networkError m => exact sendCatch_pushed_lt endpoint t m t' d h
  | response r =>
    by_cases hok : r.ok
    · rcases hj : r.json with msg | data
      · rw [show sendToBackend endpoint t (FetchResult.response r)
            = sendCatch endpoint t msg from by simp [sendToBackend, hok, hj]] at h
        exact sendCatch_pushed_lt _ _ _ _ _ h
      · rw [show sendToBackend endpoint t (FetchResult.response r)
            = sendDelivered endpoint t data from by simp [sendToBackend, hok, hj]] at h
        exact absurd h (by simp [sendDelivered])
    · have hb : r.ok = false := Bool.eq_false_iff.mpr hok
      rw [show sendToBackend endpoint t (FetchResult.response r)
          = sendCatch endpoint t (httpErrorMsg r) from by simp [sendToBackend, hb]] at h
      exact sendCatch_pushed_lt _ _ _ _ _ h

lemma pushedList_attempts_lt (endpoint : String) (t : SendTask)
    (f : FetchResult) :
    ∀ a ∈ pushedList (sendToBackend endpoint t f), a.attempts < maxAttempts := by
  intro a ha
  unfold pushedList at ha
  rcases hp : (sendToBackend endpoint t f).pushed with _ | ⟨t', d⟩
  · rw [hp] at ha
    simp at ha
  · rw [hp] at ha
    simp at ha
    subst ha
    exact sendToBackend_pushed_lt _ _ _ _ _ hp

lemma drainLoop_sent_length (s : Settings) (f : Nat → FetchResult)
    (arr : Nat → List SendTask) :
    ∀ (ts : List SendTask) (i : Nat) (st : ExtState),
      ((drainLoop s f arr i ts st).2).length = ts.length := by
  intro ts
  induction ts with
  | nil => intro i st; rfl
  | cons t ts ih => intro i st; simp [drainLoop, ih]

lemma drainLoop_sent_getElem? (s : Settings) (f : Nat → FetchResult)
    (arr : Nat → List SendTask) :
    ∀ (ts : List SendTask) (i : Nat) (st : ExtState) (j : Nat)
      (hj : j < ts.length),
      ((drainLoop s f arr i ts st).2)[j]? =
        some ((sendToBackend s.endpoint (ts.get ⟨j, hj⟩) (f (i + j))).task) := by
  intro ts
  induction ts with
  | nil => intro i st j hj; exact absurd hj (by simp)
  | cons t ts ih =>
    intro i st j hj
    rcases j with _ | j
    · simp [drainLoop]
    · have hj' : j < ts.length := by
        simp only [List.length_cons] at hj
        omega
      simp only [drainLoop]
      rw [List.getElem?_cons_succ]
      rw [ih (i + 1) _ j hj']
      have harith : i + 1 + j = i + (j + 1) := by omega
      rw [harith]
      rfl

lemma drainLoop_sent_indep (s : Settings) (f : Nat → FetchResult) :
    ∀ (ts : List SendTask) (i : Nat) (arr arr' : Nat → List SendTask)
      (st st' : ExtState),
      (drainLoop s f arr i ts st).2 = (drainLoop s f arr' i ts st').2 := by
  intro ts
  induction ts with
  | nil => intro i arr arr' st st'; rfl
  | cons t ts ih =>
    intro i arr arr' st st'
    simp only [drainLoop]
    exact congrArg (List.cons _) (ih (i + 1) arr arr' _ _)

lemma drainLoop_queue_mono (s : Settings) (f : Nat → FetchResult)
    (arr : Nat → List SendTask) :
    ∀ (ts : List SendTask) (i : Nat) (st : ExtState) (a : SendTask),
      a ∈ st.queue → a ∈ (drainLoop s f arr i ts st).1.queue := by
  intro ts
  induction ts with
  | nil => intro i st a ha; exact ha
  | cons t ts ih =>
    intro i st a ha
    simp only [drainLoop]
    refine ih (i + 1) _ a ?_
    show a ∈ (applySendStep (sendToBackend s.endpoint t (f i)) st).queue ++ arr i
    rw [applySendStep_queue]
    exact List.mem_append_left _ (List.mem_append_left _ ha)

lemma drainLoop_arr_mem (s : Settings) (f : Nat → FetchResult)
    (arr : Nat → List SendTask) :
    ∀ (ts : List SendTask) (i : Nat) (st : ExtState) (j : Nat),
      j < ts.length → ∀ a ∈ arr (i + j),
        a ∈ (drainLoop s f arr i ts st).1.queue := by
  intro ts
  induction ts with
  | nil => intro i st j hj; exact absurd hj (by simp)
  | cons t ts ih =>
    intro i st j hj a ha
    simp only [drainLoop]
    rcases j with _ | j
    · refine drainLoop_queue_mono s f arr ts (i + 1) _ a ?_
      show a ∈ (applySendStep (sendToBackend s.endpoint t (f i)) st).queue ++ arr i
      exact List.mem_append_right _ (by simpa using ha)
    · have hj' : j < ts.length := by simpa using hj
      refine ih (i + 1) _ j hj' a ?_
      have : i + 1 + j = i + (j + 1) := by omega
      rw [this]
      exact ha

lemma drainLoop_queue_bound (s : Settings) (f : Nat → FetchResult)
    (arr : Nat → List SendTask)
    (hfresh : ∀ i a, a ∈ arr i → a.attempts = 0) :
    ∀ (ts : List SendTask) (i : Nat) (st : ExtState),
      (∀ a ∈ st.queue, a.attempts < maxAttempts) →
      ∀ a ∈ (drainLoop s f arr i ts st).1.queue, a.attempts < maxAttempts := by
  intro ts
  induction ts with
  | nil => intro i st h; exact h
  | cons t ts ih =>
    intro i st h a ha
    simp only [drainLoop] at ha
    refine ih (i + 1) _ ?_ a ha
    intro b hb
    rw [show ({ applySendStep (sendToBackend s.endpoint t (f i)) st with
        queue := (applySendStep (sendToBackend s.endpoint t (f i)) st).queue
          ++ arr i } : ExtState).queue =
      (applySendStep (sendToBackend s.endpoint t (f i)) st).queue ++ arr i
      from rfl] at hb
    rw [applySendStep_queue] at hb
    rcases List.mem_append.mp hb with hb1 | hb2
    · rcases List.mem_append.mp hb1 with hb3 | hb4
      · exact h b hb3
      · exact pushedList_attempts_lt _ _ _ b hb4
    · rw [hfresh i b hb2]
      norm_num [maxAttempts]

lemma onDidSave_queue (s : Settings) (doc : Doc) (now : Nat) (st : ExtState) :
    (onDidSave s doc now st).queue = st.queue := by
  unfold onDidSave
  split
  · rfl
  · split
    · rfl
    · split <;> rfl

lemma fireTimer_queue (e : PendingEntry) (st : ExtState) :
    (fireTimer e st).queue = st.queue ++
      [{ uri := e.doc.uri, content := e.doc.textAt e.fireAt,
         attempts := 0, lastError := none }] := rfl

lemma foldl_fireTimer_bound :
    ∀ (l : List PendingEntry) (st : ExtState),
      (∀ a ∈ st.queue, a.attempts < maxAttempts) →
      ∀ a ∈ (l.foldl (fun acc e => fireTimer e acc) st).queue,
        a.attempts < maxAttempts := by
  intro l
  induction l with
  | nil => intro st h; exact h
  | cons e l ih =>
    intro st h a ha
    rw [List.foldl_cons] at ha
    refine ih _ ?_ a ha
    intro b hb
    rw [fireTimer_queue] at hb
    rcases List.mem_append.mp hb with h1 | h2
    · exact h b h1
    · simp at h2
      subst h2
      norm_num [maxAttempts]

lemma onDidSave_active (s : Settings) (doc : Doc) (now : Nat) (st : ExtState)
    (hen : s.enabled = true) (hs : doc.uri.scheme = "file")
    (hex : isExcluded s.excludeMatchers doc.uri = false) :
    onDidSave s doc now st =
      { st with pending := st.pending.filter (fun e => e.key != doc.uri.key)
          ++ [{ key := doc.uri.key, fireAt := now + s.debounceMs, doc := doc }] } := by
  unfold onDidSave
  rw [if_neg (by simp [hen]), if_neg (by simp [hs]), if_neg (by simp [hex])]

lemma fireDue_not_due (t : Nat) (st : ExtState)
    (h : ∀ e ∈ st.pending, ¬ e.fireAt ≤ t) : fireDue t st = st := by
  have hfil : st.pending.filter (fun e => decide (e.fireAt ≤ t)) = [] := by
    rw [List.filter_eq_nil_iff]
    intro e he
    simpa using h e he
  unfold fireDue
  rw [hfil]
  rfl

lemma debounce_fold (s : Settings) (doc : Doc)
    (hen : s.enabled = true) (hs : doc.uri.scheme = "file")
    (hex : isExcluded s.excludeMatchers doc.uri = false) :
    ∀ (rest : List Nat) (prev : Nat),
      List.Chain' (fun a b => a ≤ b ∧ b < a + s.debounceMs) (prev :: rest) →
      List.foldl (fun st t => onDidSave s doc t (fireDue t st))
          { queue := [], drainTimer := none,
            pending := [⟨doc.uri.key, prev + s.debounceMs, doc⟩],
            log := [] } rest =
        { queue := [], drainTimer := none,
          pending := [⟨doc.uri.key,
            (prev :: rest).getLast (List.cons_ne_nil prev rest) + s.debounceMs,
            doc⟩],
          log := [] } := by
  intro rest
  induction rest with
  | nil => intro prev hch; rfl
  | cons t rest ih =>
    intro prev hch
    obtain ⟨⟨h1, h2⟩, hch'⟩ := List.chain'_cons.mp hch
    rw [List.foldl_cons]
    have hfd : fireDue t
        ({ queue := [], drainTimer := none,
           pending := [⟨doc.uri.key, prev + s.debounceMs, doc⟩],
           log := [] } : ExtState) =
        { queue := [], drainTimer := none,
          pending := [⟨doc.uri.key, prev + s.debounceMs, doc⟩],
          log := [] } := by
      apply fireDue_not_due
      intro e he
      simp at he
      rw [he]
      show ¬ prev + s.debounceMs ≤ t
      omega
    have hstep : onDidSave s doc t
        ({ queue := [], drainTimer := none,
           pending := [⟨doc.uri.key, prev + s.debounceMs, doc⟩],
           log := [] } : ExtState) =
        { queue := [], drainTimer := none,
          pending := [⟨doc.uri.key, t + s.debounceMs, doc⟩],
          log := [] } := by
      rw [onDidSave_active s doc t _ hen hs hex]
      simp
    rw [hfd, hstep, ih t hch']
    rw [List.getLast_cons_cons]

/-! Concrete instances used by witnesses and counterexamples. -/

def endpointC : String := "http://localhost:5000/api/analyze"

def uriC : Uri := ⟨"file", "/tmp/a.py"⟩

def taskC : SendTask := ⟨uriC, "print(1)", 0, none⟩

def task4 : SendTask := ⟨uriC, "print(1)", 4, none⟩

def settingsC : Settings := ⟨true, endpointC, "", 300, []⟩

def docC : Doc := ⟨uriC, fun n => "content@" ++ toString n⟩

def pendingState : ExtState := onDidSave settingsC docC 0 initialState

/-! Claims. -/

/-- C1: a burst of save notifications for one document, each within
`debounceMs` of the previous one, emits exactly one task when the last
timer fires: its content is the document text read at the fire instant
(last save + `debounceMs`), the key's pending entry is removed, and an
immediate drain is scheduled. -/
theorem debounce_single_emission (s : Settings) (doc : Doc) (t0 : Nat)
    (rest : List Nat)
    (hen : s.enabled = true) (hs : doc.uri.scheme = "file")
    (hex : isExcluded s.excludeMatchers doc.uri = false)
    (hch : List.Chain' (fun a b => a ≤ b ∧ b < a + s.debounceMs) (t0 :: rest)) :
    runSaves s doc (t0 :: rest)
        ((t0 :: rest).getLast (List.cons_ne_nil t0 rest) + s.debounceMs) =
      { queue := [⟨doc.uri,
          doc.textAt ((t0 :: rest).getLast (List.cons_ne_nil t0 rest)
            + s.debounceMs), 0, none⟩],
        drainTimer := some 0,
        pending := [],
        log := ["Queued " ++ doc.uri.fsPath ++ " for sending"] } := by
  unfold runSaves
  rw [List.foldl_cons]
  have h0 : onDidSave s doc t0 (fireDue t0 initialState) =
      { queue := [], drainTimer := none,
        pending := [⟨doc.uri.key, t0 + s.debounceMs, doc⟩], log := [] } := by
    have hinit : fireDue t0 initialState = initialState := by
      apply fireDue_not_due
      intro e he
      simp [initialState] at he
    rw [hinit, onDidSave_active s doc t0 _ hen hs hex]
    simp [initialState]
  rw [h0, debounce_fold s doc hen hs hex rest t0 hch]
  unfold fireDue
  simp [fireTimer, scheduleQueueProcessor]

/-- Witness for C1: three saves of `/tmp/a.py` at 0, 100 and 200 ms
with a 300 ms debounce yield a single task holding the text at 500 ms. -/
theorem debounce_single_emission_witness :
    runSaves settingsC docC [0, 100, 200]
        ([0, 100, 200].getLast (by simp) + settingsC.debounceMs) =
      { queue := [⟨docC.uri,
          docC.textAt ([0, 100, 200].getLast (by simp) + settingsC.debounceMs),
          0, none⟩],
        drainTimer := some 0,
        pending := [],
        log := ["Queued " ++ docC.uri.fsPath ++ " for sending"] } :=
  debounce_single_emission settingsC docC 0 [100, 200] rfl rfl rfl
    (List.chain'_cons.mpr ⟨⟨by decide, by decide⟩,
      List.chain'_cons.mpr ⟨⟨by decide, by decide⟩, List.chain'_singleton _⟩⟩)

/-- C2: a drain on a non-empty queue sends exactly the tasks queued
when it starts, sequentially in enqueue order (task `j` of the snapshot
is the `j`-th send); the pass's sends are independent of anything
enqueued while it runs, those tasks end up in the post-drain queue for
the next pass; a drain on an empty queue is a no-op beyond clearing the
drain timer. -/
theorem processQueue_drain_semantics (s : Settings) (f : Nat → FetchResult)
    (arr arr' : Nat → List SendTask) (st : ExtState) :
    (st.queue = [] →
      processQueue s f arr st = ({ st with drainTimer := none }, [])) ∧
    ((processQueue s f arr st).2.length = st.queue.length) ∧
    (∀ (j : Nat) (hj : j < st.queue.length),
      ((processQueue s f arr st).2)[j]? =
        some ((sendToBackend s.endpoint (st.queue.get ⟨j, hj⟩) (f j)).task)) ∧
    ((processQueue s f arr st).2 = (processQueue s f arr' st).2) ∧
    (∀ j : Nat, j < st.queue.length →
      ∀ a ∈ arr j, a ∈ (processQueue s f arr st).1.queue) := by
  by_cases hq : st.queue = []
  · refine ⟨fun _ => by simp [processQueue, hq], ?_, ?_, ?_, ?_⟩
    · simp [processQueue, hq]
    · intro j hj
      rw [hq] at hj
      exact absurd hj (by simp)
    · simp [processQueue, hq]
    · intro j hj
      rw [hq] at hj
      exact absurd hj (by simp)
  · have hne : st.queue.isEmpty = false := by
      rcases hqq : st.queue with _ | ⟨t, ts⟩
      · exact absurd hqq hq
      · rfl
    refine ⟨fun h => absurd h hq, ?_, ?_, ?_, ?_⟩
    · simp only [processQueue, hne]
      simp [drainLoop_sent_length]
    · intro j hj
      simp only [processQueue, hne]
      simp only [Bool.false_eq_true, if_false]
      have := drainLoop_sent_getElem? s f arr st.queue 0
        ({ { st with drainTimer := none } with queue := [] }) j hj
      simpa using this
    · simp only [processQueue, hne]
      simp only [Bool.false_eq_true, if_false]
      exact drainLoop_sent_indep s f st.queue 0 arr arr' _ _
    · intro j hj a ha
      simp only [processQueue, hne]
      simp only [Bool.false_eq_true, if_false]
      refine drainLoop_arr_mem s f arr st.queue 0 _ j hj a ?_
      simpa using ha

/-- C4: no reachable state holds a queued task whose attempt counter
has reached `maxAttempts = 5`: `requeue` never re-enqueues such a task
and logs the abandonment instead, and the 5th consecutive failure of a
task leaves it un-queued with the abandonment line in the output. -/
theorem queue_never_holds_exhausted :
    (∀ st : ExtState, Reach st →
      ∀ t ∈ st.queue, t.attempts < maxAttempts) ∧
    (∀ t : SendTask, maxAttempts ≤ t.attempts →
      (requeue t).pushed = none ∧ (requeue t).log = [givingUpLine t]) ∧
    (∀ (endpoint : String) (t : SendTask) (f : FetchResult) (msg : String),
      fetchFailure f = some msg → t.attempts = 4 →
        (sendToBackend endpoint t f).pushed = none ∧
        givingUpLine (sendToBackend endpoint t f).task
          ∈ (sendToBackend endpoint t f).log) := by
  refine ⟨?_, ?_, ?_⟩
  · intro st h
    induction h with
    | init => simp [initialState]
    | save s doc now st2 hr ih =>
      intro t ht
      rw [onDidSave_queue] at ht
      exact ih t ht
    | fire tm st2 hr ih =>
      exact foldl_fireTimer_bound _ _ ih
    | drain s f arr hfresh st2 hr ih =>
      by_cases hq : st2.queue = []
      · intro t ht
        rw [show processQueue s f arr st2 = ({ st2 with drainTimer := none }, [])
          from by simp [processQueue, hq]] at ht
        exact ih t ht
      · have hne : st2.queue.isEmpty = false := by
          rcases hqq : st2.queue with _ | ⟨a, as⟩
          · exact absurd hqq hq
          · rfl
        intro t ht
        rw [show processQueue s f arr st2 = drainLoop s f arr 0 st2.queue
            { st2 with drainTimer := none, queue := [] }
          from by simp [processQueue, hne]] at ht
        exact drainLoop_queue_bound s f arr hfresh st2.queue 0 _ (by simp) t ht
    | teardown st2 hr ih => exact ih
  · intro t h
    exact ⟨requeue_pushed_ge t h, by rw [requeue, if_pos h]⟩
  · intro endpoint t f msg hf h4
    rw [sendToBackend_of_failure endpoint t f msg hf]
    have h5 : maxAttempts ≤ ({ t with attempts := t.attempts + 1, lastError := some msg } : SendTask).attempts := by
      simp [h4, maxAttempts]
    constructor
    · show (requeue _).pushed = none
      exact requeue_pushed_ge _ h5
    · show givingUpLine _ ∈ _ ++ (requeue _).log
      rw [requeue, if_pos h5]
      simp [sendCatch]

/-- C3: on every delivery failure (network failure, non-success status,
or decode failure) the task's `attempts` counter is incremented by
exactly 1, `lastError` is set to the error message, and the task is
handed back for a scheduled retry subject to the abandonment
threshold. -/
theorem send_failure_updates (endpoint : String) (t : SendTask)
    (f : FetchResult) (msg : String) (hf : fetchFailure f = some msg) :
    (sendToBackend endpoint t f).task.attempts = t.attempts + 1 ∧
    (sendToBackend endpoint t f).task.lastError = some msg ∧
    (sendToBackend endpoint t f).task.uri = t.uri ∧
    (sendToBackend endpoint t f).task.content = t.content ∧
    ((sendToBackend endpoint t f).task.attempts < maxAttempts →
      (sendToBackend endpoint t f).pushed =
        some ((sendToBackend endpoint t f).task,
          min 60000 (500 * 2 ^ (sendToBackend endpoint t f).task.attempts))) ∧
    (maxAttempts ≤ (sendToBackend endpoint t f).task.attempts →
      (sendToBackend endpoint t f).pushed = none) := by
  rw [sendToBackend_of_failure endpoint t f msg hf]
  refine ⟨rfl, rfl, rfl, rfl, ?_, ?_⟩
  · intro h
    exact requeue_pushed_lt _ h
  · intro h
    exact requeue_pushed_ge _ h

/-- Witness for C3: a rejected fetch on a fresh task. -/
theorem send_failure_updates_witness :
    (sendToBackend endpointC taskC (FetchResult.networkError "ECONNREFUSED")).task.attempts
        = taskC.attempts + 1 ∧
    (sendToBackend endpointC taskC (FetchResult.networkError "ECONNREFUSED")).task.lastError
        = some "ECONNREFUSED" ∧
    (sendToBackend endpointC taskC (FetchResult.networkError "ECONNREFUSED")).task.uri
        = taskC.uri ∧
    (sendToBackend endpointC taskC (FetchResult.networkError "ECONNREFUSED")).task.content
        = taskC.content ∧
    ((sendToBackend endpointC taskC (FetchResult.networkError "ECONNREFUSED")).task.attempts
        < maxAttempts →
      (sendToBackend endpointC taskC (FetchResult.networkError "ECONNREFUSED")).pushed =
        some ((sendToBackend endpointC taskC (FetchResult.networkError "ECONNREFUSED")).task,
          min 60000 (500 * 2 ^ (sendToBackend endpointC taskC
            (FetchResult.networkError "ECONNREFUSED")).task.attempts))) ∧
    (maxAttempts ≤ (sendToBackend endpointC taskC
        (FetchResult.networkError "ECONNREFUSED")).task.attempts →
      (sendToBackend endpointC taskC (FetchResult.networkError "ECONNREFUSED")).pushed
        = none) :=
  send_failure_updates endpointC taskC (FetchResult.networkError "ECONNREFUSED")
    "ECONNREFUSED" rfl

/-- C5 counterexample: a task failing with post-increment attempt count
5 is abandoned; no retry is scheduled, while the claim asserts a
scheduled delay of `min(60000, 500 * 2 ^ 5) = 16000` ms for it. -/
theorem backoff_no_delay_at_attempt_five :
    (sendToBackend endpointC task4 (FetchResult.networkError "ECONNREFUSED")).task.attempts
        = 5 ∧
    (sendToBackend endpointC task4 (FetchResult.networkError "ECONNREFUSED")).pushed
        = none ∧
    min 60000 (500 * 2 ^ 5) = 16000 :=
  ⟨rfl, rfl, rfl⟩

/-- C5 (amended): for a failing task whose post-increment attempt count
`k = attempts + 1` is below the abandonment threshold, the scheduled
retry delay equals `min(60000, 500 * 2 ^ k)`, which for the reachable
counts `k ≤ 4` is just `500 * 2 ^ k` (k = 1 gives 1000 ms, k = 4 gives
8000 ms); for `k ≥ 5` the task is abandoned and no delay is scheduled,
so the 60000 ms cap (binding only from k = 7 on) is never exercised. -/
theorem backoff_delay_amended (endpoint : String) (t : SendTask)
    (f : FetchResult) (msg : String) (hf : fetchFailure f = some msg) :
    (t.attempts + 1 < maxAttempts →
      (sendToBackend endpoint t f).pushed =
        some ((sendToBackend endpoint t f).task,
          min 60000 (500 * 2 ^ (t.attempts + 1)))) ∧
    (t.attempts + 1 ≤ 4 →
      min 60000 (500 * 2 ^ (t.attempts + 1)) = 500 * 2 ^ (t.attempts + 1)) ∧
    (t.attempts = 0 →
      (sendToBackend endpoint t f).pushed =
        some ((sendToBackend endpoint t f).task, 1000)) ∧
    (t.attempts = 3 →
      (sendToBackend endpoint t f).pushed =
        some ((sendToBackend endpoint t f).task, 8000)) ∧
    (4 ≤ t.attempts → (sendToBackend endpoint t f).pushed = none) ∧
    (∀ k : Nat, 7 ≤ k → min 60000 (500 * 2 ^ k) = 60000) := by
  rw [sendToBackend_of_failure endpoint t f msg hf]
  refine ⟨?_, ?_, ?_, ?_, ?_, ?_⟩
  · intro h
    exact requeue_pushed_lt _ h
  · intro h
    have hp : 2 ^ (t.attempts + 1) ≤ 2 ^ 4 := Nat.pow_le_pow_right (by norm_num) h
    omega
  · intro h
    have := requeue_pushed_lt
      ((sendCatch endpoint t msg).task) (by simp [sendCatch, h, maxAttempts])
    simpa [sendCatch, h] using this
  · intro h
    have := requeue_pushed_lt
      ((sendCatch endpoint t msg).task) (by simp [sendCatch, h, maxAttempts])
    simpa [sendCatch, h] using this
  · intro h
    exact requeue_pushed_ge _ (by simp [sendCatch, maxAttempts]; omega)
  · intro k hk
    have hp : 2 ^ 7 ≤ 2 ^ k := Nat.pow_le_pow_right (by norm_num) hk
    have : (2 : Nat) ^ 7 = 128 := by norm_num
    omega

/-- Witness for C5 (amended): a fresh task failing once gets a 1000 ms
retry delay. -/
theorem backoff_delay_amended_witness :
    (taskC.attempts + 1 < maxAttempts →
      (sendToBackend endpointC taskC (FetchResult.networkError "E")).pushed =
        some ((sendToBackend endpointC taskC (FetchResult.networkError "E")).task,
          min 60000 (500 * 2 ^ (taskC.attempts + 1)))) ∧
    (taskC.attempts + 1 ≤ 4 →
      min 60000 (500 * 2 ^ (taskC.attempts + 1)) = 500 * 2 ^ (taskC.attempts + 1)) ∧
    (taskC.attempts = 0 →
      (sendToBackend endpointC taskC (FetchResult.networkError "E")).pushed =
        some ((sendToBackend endpointC taskC (FetchResult.networkError "E")).task, 1000)) ∧
    (taskC.attempts = 3 →
      (sendToBackend endpointC taskC (FetchResult.networkError "E")).pushed =
        some ((sendToBackend endpointC taskC (FetchResult.networkError "E")).task, 8000)) ∧
    (4 ≤ taskC.attempts →
      (sendToBackend endpointC taskC (FetchResult.networkError "E")).pushed = none) ∧
    (∀ k : Nat, 7 ≤ k → min 60000 (500 * 2 ^ k) = 60000) :=
  backoff_delay_amended endpointC taskC (FetchResult.networkError "E") "E" rfl

/-- C6: a transport-level success (success status and decoded JSON)
resets the task's attempt counter to 0 and never re-enqueues it,
whatever the decoded payload contains. -/
theorem send_success_resets (endpoint : String) (t : SendTask)
    (r : HttpResponse) (data : BackendResponse)
    (hok : r.ok = true) (hj : r.json = Except.ok data) :
    (sendToBackend endpoint t (FetchResult.response r)).task
        = { t with attempts := 0 } ∧
    (sendToBackend endpoint t (FetchResult.response r)).pushed = none ∧
    (sendToBackend endpoint t (FetchResult.response r)).notice
        = some (interpretResponse data) := by
  simp [sendToBackend, hok, hj, sendDelivered]

/-- Witness for C6: an HTTP 200 whose payload carries only an `error`
field (a remote logic error) still resets `attempts` of a 4-failure
task to 0 and schedules no retry. -/
theorem send_success_resets_witness :
    (sendToBackend endpointC task4
        (FetchResult.response ⟨true, 200, some "", Except.ok ⟨none, some "boom", none⟩⟩)).task
      = { task4 with attempts := 0 } ∧
    (sendToBackend endpointC task4
        (FetchResult.response ⟨true, 200, some "", Except.ok ⟨none, some "boom", none⟩⟩)).pushed
      = none ∧
    (sendToBackend endpointC task4
        (FetchResult.response ⟨true, 200, some "", Except.ok ⟨none, some "boom", none⟩⟩)).notice
      = some (interpretResponse ⟨none, some "boom", none⟩) :=
  send_success_resets endpointC task4
    ⟨true, 200, some "", Except.ok ⟨none, some "boom", none⟩⟩
    ⟨none, some "boom", none⟩ rfl rfl

/-- C7: a save whose resource path matches a configured exclude matcher
changes neither the queue, nor the debounce map, nor the drain timer:
no task is created or enqueued for it, before or after the debouncer. -/
theorem excluded_never_queued (s : Settings) (doc : Doc) (now : Nat)
    (st : ExtState) (hx : isExcluded s.excludeMatchers doc.uri = true) :
    (onDidSave s doc now st).queue = st.queue ∧
    (onDidSave s doc now st).pending = st.pending ∧
    (onDidSave s doc now st).drainTimer = st.drainTimer := by
  unfold onDidSave
  split
  · exact ⟨rfl, rfl, rfl⟩
  · split
    · exact ⟨rfl, rfl, rfl⟩
    · simp [hx]

/-- Witness for C7: a matcher accepting `/a/node_modules/b.js`
suppresses the save of that path. -/
theorem excluded_never_queued_witness :
    (onDidSave ⟨true, endpointC, "", 300, [fun p => p == "/a/node_modules/b.js"]⟩
        ⟨⟨"file", "/a/node_modules/b.js"⟩, fun _ => "x"⟩ 0 initialState).queue
      = initialState.queue ∧
    (onDidSave ⟨true, endpointC, "", 300, [fun p => p == "/a/node_modules/b.js"]⟩
        ⟨⟨"file", "/a/node_modules/b.js"⟩, fun _ => "x"⟩ 0 initialState).pending
      = initialState.pending ∧
    (onDidSave ⟨true, endpointC, "", 300, [fun p => p == "/a/node_modules/b.js"]⟩
        ⟨⟨"file", "/a/node_modules/b.js"⟩, fun _ => "x"⟩ 0 initialState).drainTimer
      = initialState.drainTimer :=
  excluded_never_queued _ _ 0 initialState rfl

/-- C8 counterexample: for the extension-less path `/tmp/makefile` the
request body's `language` field is the whole path, not the empty string
the claim promises. -/
theorem language_not_empty_without_extension :
    (buildRequestBody ⟨⟨"file", "/tmp/makefile"⟩, "x", 0, none⟩
        "2025-01-01T00:00:00.000Z").language = "/tmp/makefile" ∧
    (buildRequestBody ⟨⟨"file", "/tmp/makefile"⟩, "x", 0, none⟩
        "2025-01-01T00:00:00.000Z").language ≠ "" := by
  constructor
  · decide
  · decide

/-- C8 (amended): the request body's `language` field is the segment of
the resource path after its last dot; for a path containing no dot it
equals the whole path (not the empty string), and it is empty for the
empty path or a path ending in a dot. -/
theorem request_body_language (t : SendTask) (ts : String) :
    (buildRequestBody t ts).language = languageOf t.uri.path ∧
    (∀ stem ext : String, '.' ∉ ext.toList →
      languageOf (stem ++ "." ++ ext) = ext) ∧
    (∀ p : String, '.' ∉ p.toList → languageOf p = p) ∧
    (∀ p : String, languageOf (p ++ ".") = "") ∧
    languageOf "" = "" := by
  refine ⟨rfl, languageOf_append_dot, languageOf_no_dot, ?_, rfl⟩
  intro p
  have h : languageOf (p ++ "." ++ "") = "" :=
    languageOf_append_dot p "" (by simp)
  simpa using h

/-- C9 counterexample: teardown of a state holding one live per-key
debounce timer leaves that timer installed, and it still fires and
enqueues a task afterwards — teardown does not cancel the per-key
debounce timers. -/
theorem dispose_keeps_debounce_timer :
    (dispose pendingState).pending.length = 1 ∧
    (fireDue 300 (dispose pendingState)).queue.length = 1 :=
  ⟨rfl, rfl⟩

/-- C9 (amended): the teardown hook cancels the pending drain timer (if
any) and reports the number of remaining queued tasks without flushing
or changing them; the per-key debounce timers are left uncancelled. -/
theorem dispose_spec (st : ExtState) :
    (dispose st).drainTimer = none ∧
    (dispose st).queue = st.queue ∧
    (dispose st).pending = st.pending ∧
    (dispose st).log = st.log ++
      ["CodeSendOnSave deactivating. Queue length: " ++ toString st.queue.length] :=
  ⟨rfl, rfl, rfl, rfl⟩

/-- C10: a save of a document whose uri scheme is not `file` leaves the
state untouched (no log line, no timer, no task), independently of the
exclude matcher configuration. -/
theorem nonfile_scheme_ignored (s : Settings) (doc : Doc) (now : Nat)
    (st : ExtState) (hs : doc.uri.scheme ≠ "file") :
    onDidSave s doc now st = st ∧
    (∀ ms : List (String → Bool),
      onDidSave { s with excludeMatchers := ms } doc now st = st) := by
  have key : ∀ s' : Settings, onDidSave s' doc now st = st := by
    intro s'
    unfold onDidSave
    split
    · rfl
    · rw [if_pos (by simpa [bne_iff_ne] using hs)]
  exact ⟨key s, fun ms => key _⟩

/-- Witness for C10: saving an untitled document changes nothing. -/
theorem nonfile_scheme_ignored_witness :
    onDidSave settingsC ⟨⟨"untitled", "Untitled-1"⟩, fun _ => "x"⟩ 7 initialState
      = initialState ∧
    (∀ ms : List (String → Bool),
      onDidSave { settingsC with excludeMatchers := ms }
        ⟨⟨"untitled", "Untitled-1"⟩, fun _ => "x"⟩ 7 initialState = initialState) :=
  nonfile_scheme_ignored settingsC ⟨⟨"untitled", "Untitled-1"⟩, fun _ => "x"⟩ 7
    initialState (by decide)

end BrainBug
